import Mathlib

set_option maxHeartbeats 1000000

/-!
Shallow embedding of the ext2 inode-printing tool (src/ext2.c).

A device is a byte-addressed read-only store of type `Nat → Nat`; every
read masks each byte to 8 bits.  The unsigned 64-bit arithmetic of the C
source is carried out in `Nat` with explicit reduction modulo `2 ^ 64`
wherever the source computes in `_u64`.  The unbounded `while` loops of
the source are modelled with an explicit fuel argument; a result of
`none` from a fueled loop means the fuel ran out (the C loop would still
be running), while the loops whose iteration count is fixed by the
source (`EXT2_N_BLOCKS`, `EXT2_ADDR_PER_BLOCK`) get exactly that much
fuel and cannot exhaust it.
-/

/-- 2^64, the modulus of the `_u64` arithmetic used throughout the source. -/
def M64 : Nat := 2 ^ 64

/-- Little-endian 16-bit read at an absolute byte offset (models reading a
`__u16` field of an on-disk structure through `_ext2_read`). -/
def readU16 (dev : Nat → Nat) (off : Nat) : Nat :=
  dev off % 256 + 256 * (dev (off + 1) % 256)

/-- Little-endian 32-bit read at an absolute byte offset (models reading a
`__u32` field of an on-disk structure through `_ext2_read`). -/
def readU32 (dev : Nat → Nat) (off : Nat) : Nat :=
  dev off % 256 + 256 * (dev (off + 1) % 256)
    + 65536 * (dev (off + 2) % 256) + 16777216 * (dev (off + 3) % 256)

/-- The fields of `struct ext2_super_block` that the source consults,
mirroring the macros `EXT2_BLOCK_SIZE`, `EXT2_INODES_PER_GROUP`,
`EXT2_INODE_SIZE` and the magic check material. -/
structure SuperBlock where
  s_log_block_size : Nat
  s_inodes_per_group : Nat
  s_rev_level : Nat
  s_inode_size : Nat
  s_magic : Nat
deriving DecidableEq

/-- `EXT2_BLOCK_SIZE`: `1024 << s_log_block_size`. -/
def blockSize (sb : SuperBlock) : Nat := 1024 <<< sb.s_log_block_size

/-- `EXT2_ADDR_PER_BLOCK`: `EXT2_BLOCK_SIZE / sizeof(__u32)`. -/
def addrPerBlock (sb : SuperBlock) : Nat := blockSize sb / 4

/-- `EXT2_DESC_SIZE`: 32 bytes for an ext2 volume (the 64-bit incompat
feature of ext4 is absent on ext2, so the macro yields
`EXT2_MIN_DESC_SIZE`). -/
def descSize (_sb : SuperBlock) : Nat := 32

/-- `EXT2_INODE_SIZE`: 128 for a good-old-rev volume, else `s_inode_size`. -/
def inodeSize (sb : SuperBlock) : Nat :=
  if sb.s_rev_level = 0 then 128 else sb.s_inode_size

/-- The superblock as read by `ext2_init`: 1024 bytes at offset 1024
(`EXT2_SUPER_BLOCK_OFFSET`); field offsets follow
`struct ext2_super_block` (`s_log_block_size` at +24, `s_inodes_per_group`
at +40, `s_magic` at +56, `s_rev_level` at +76, `s_inode_size` at +88). -/
def parseSuperBlock (dev : Nat → Nat) : SuperBlock :=
  { s_log_block_size := readU32 dev (1024 + 24)
    s_inodes_per_group := readU32 dev (1024 + 40)
    s_rev_level := readU32 dev (1024 + 76)
    s_inode_size := readU16 dev (1024 + 88)
    s_magic := readU16 dev (1024 + 56) }

/-- Error kinds named by the spec for volume open and inode load. -/
inductive Ext2Err where
  | NotExt2 : Ext2Err
  | BadInode : Ext2Err
deriving DecidableEq

/-- `ext2_init`: reads the superblock at offset 1024 and returns it.  The
source performs no validation of the device contents whatsoever (its only
failure exit is the environmental `open(2)` failure, which is not a
property of the bytes on the device): in particular `s_magic` is never
compared against 0xEF53, so the result is `ok` for every device image. -/
def ext2_init (dev : Nat → Nat) : Except Ext2Err SuperBlock :=
  Except.ok (parseSuperBlock dev)

/-- `grp_nb = (ino - 1) / EXT2_INODES_PER_GROUP` computed in `_u64`:
for `ino = 0` the subtraction wraps to `2^64 - 1`. -/
def grpNb (sb : SuperBlock) (ino : Nat) : Nat :=
  ((ino + (M64 - 1)) % M64) / sb.s_inodes_per_group

/-- `grp_desc_off = EXT2_BLOCK_SIZE + grp_nb * EXT2_DESC_SIZE`
(`_ext2_ino_to_ino_st`, src/ext2.c:205).  Note the base is always
`block_size`, with no special case for block size 1024. -/
def grpDescOff (sb : SuperBlock) (grp : Nat) : Nat :=
  (blockSize sb + grp * descSize sb) % M64

/-- Modelled from the spec: the group-descriptor table starts in the block
immediately following the superblock's block, i.e. at offset `block_size`
when `block_size ≥ 2048` and at offset 2048 when `block_size = 1024`. -/
def grpDescOffSpec (sb : SuperBlock) (grp : Nat) : Nat :=
  (if blockSize sb = 1024 then 2048 else blockSize sb) + grp * 32

/-- `bg_inode_table` (at offset +8 of `struct ext2_group_desc`) of the
group descriptor that `_ext2_ino_to_ino_st` reads for `ino`. -/
def inoTabBlk (dev : Nat → Nat) (sb : SuperBlock) (ino : Nat) : Nat :=
  readU32 dev (grpDescOff sb (grpNb sb ino) + 8)

/-- `ino_idx = (ino - 1) % EXT2_INODES_PER_GROUP` in `_u64`. -/
def inoIdx (sb : SuperBlock) (ino : Nat) : Nat :=
  ((ino + (M64 - 1)) % M64) % sb.s_inodes_per_group

/-- `ino_off = ino_tab_off + ino_idx * EXT2_INODE_SIZE` where
`ino_tab_off = bg_inode_table * EXT2_BLOCK_SIZE` (src/ext2.c:210-214). -/
def inoOff (dev : Nat → Nat) (sb : SuperBlock) (ino : Nat) : Nat :=
  (inoTabBlk dev sb ino * blockSize sb + inoIdx sb ino * inodeSize sb) % M64

/-- The fields of `struct ext2_inode` consumed by the operations under
verification: `i_mode` (+0), `i_size` (+4) and the 15-slot block-pointer
array `i_block` (+40).  The remaining metadata fields are read by the
source only to be printed verbatim. -/
structure Inode where
  i_mode : Nat
  i_size : Nat
  i_block : List Nat
deriving DecidableEq

/-- `_ext2_ino_to_ino_st`: computes the inode offset and reads the record
there.  The source contains no validity check at all: `ino = 0` is not
rejected, the offset is simply computed from the wrapped `ino - 1`. -/
def ext2_ino_to_ino_st (dev : Nat → Nat) (sb : SuperBlock) (ino : Nat) : Inode :=
  { i_mode := readU16 dev (inoOff dev sb ino)
    i_size := readU32 dev (inoOff dev sb ino + 4)
    i_block := (List.range 15).map (fun i => readU32 dev (inoOff dev sb ino + 40 + 4 * i)) }

/-- One `struct ext2_dir_entry_2` as read by `_ext2_read(blk_off + i,
&dir_ent, EXT2_DIR_ENTRY_SIZE)`: `inode` (+0), `rec_len` (+4),
`name_len` (+6), `file_type` (+7), then `name_len` name bytes (+8). -/
structure DirEnt where
  inode : Nat
  rec_len : Nat
  name_len : Nat
  file_type : Nat
  name : List Nat
deriving DecidableEq

/-- Parse the directory entry at absolute byte offset `off`. -/
def readDirEnt (dev : Nat → Nat) (off : Nat) : DirEnt :=
  { inode := readU32 dev off
    rec_len := readU16 dev (off + 4)
    name_len := dev (off + 6) % 256
    file_type := dev (off + 7) % 256
    name := (List.range (dev (off + 6) % 256)).map (fun j => dev (off + 8 + j) % 256) }

/-- `!memcmp(nxt_arg, dir_ent.name, dir_ent.name_len)`:  `arg` is the
NUL-terminated search token (listed without its NUL).  The C call compares
exactly `len` bytes of both buffers; for `len ≤ arg.length + 1` the bytes
compared on the left are `arg` followed by its NUL, which is what this
model takes (beyond that the C reads past the token's allocation, which is
undefined, and the model compares just the available bytes). -/
def memcmpMatch (arg name : List Nat) (len : Nat) : Bool :=
  decide ((arg ++ [0]).take len = name.take len)

/-- The cursor loop of `_ext2_dir_search` (src/ext2.c:236-248): while the
cursor is below the block size, read the entry at the cursor, return its
`inode` field if the first `name_len` bytes of the search token match the
entry's name, else advance by `rec_len`.  Falling off the block returns
`EXT2_BAD_INO = 1`; running out of fuel (`none`) models the C loop
spinning forever on a zero `rec_len`. -/
def dirSearchLoop (dev : Nat → Nat) (blkOff B : Nat) (arg : List Nat) :
    Nat → Nat → Option Nat
  | _, 0 => none
  | cur, fuel + 1 =>
    if cur < B then
      if memcmpMatch arg (readDirEnt dev (blkOff + cur)).name
          (readDirEnt dev (blkOff + cur)).name_len then
        some (readDirEnt dev (blkOff + cur)).inode
      else
        dirSearchLoop dev blkOff B arg
          (cur + (readDirEnt dev (blkOff + cur)).rec_len) fuel
    else some 1

/-- `_ext2_dir_search` on data block `blk`.  Each completed iteration
advances the cursor by at least one byte whenever `rec_len` is nonzero,
so `block_size + 1` units of fuel are enough for every terminating run. -/
def ext2_dir_search (dev : Nat → Nat) (sb : SuperBlock) (blk : Nat) (arg : List Nat) :
    Option Nat :=
  dirSearchLoop dev (blk * blockSize sb) (blockSize sb) arg 0 (blockSize sb + 1)

/-- The cursor loop of `_ext2_dir_print_dir` (src/ext2.c:498-507): the
same cursor advance as the search loop, collecting every entry read. -/
def dirPrintDirLoop (dev : Nat → Nat) (blkOff B : Nat) : Nat → Nat → List DirEnt
  | _, 0 => []
  | cur, fuel + 1 =>
    if cur < B then
      readDirEnt dev (blkOff + cur) ::
        dirPrintDirLoop dev blkOff B (cur + (readDirEnt dev (blkOff + cur)).rec_len) fuel
    else []

/-- The bare cursor iteration shared by `_ext2_dir_search` and
`_ext2_dir_print_dir`: the list of cursor values visited, where
`recAt c` is the `rec_len` of the entry read at cursor `c`. -/
def dirScanOffsets (recAt : Nat → Nat) (B : Nat) : Nat → Nat → List Nat
  | _, 0 => []
  | cur, fuel + 1 =>
    if cur < B then cur :: dirScanOffsets recAt B (cur + recAt cur) fuel else []

/-- The final cursor value of the shared cursor iteration. -/
def dirScanFinal (recAt : Nat → Nat) (B : Nat) : Nat → Nat → Nat
  | cur, 0 => cur
  | cur, fuel + 1 =>
    if cur < B then dirScanFinal recAt B (cur + recAt cur) fuel else cur

/-- The byte offsets of a sequence of directory entries with record
lengths `rs`, the first one at offset `cur`. -/
def offsetsOf : List Nat → Nat → List Nat
  | [], _ => []
  | r :: rs, cur => cur :: offsetsOf rs (cur + r)

/-- `agrees recAt cur rs` states that reading `rec_len` at cursor `cur`
yields the head of `rs`, and so on down the chain of partial sums: the
on-disk layout of the block agrees with the record-length list `rs`. -/
def agrees (recAt : Nat → Nat) : Nat → List Nat → Bool
  | _, [] => true
  | cur, r :: rs => (recAt cur == r) && agrees recAt (cur + r) rs

/-- The pointer loop shared by `_ext2_indir_search` and
`_ext2_indir_print`: for each of the `addrPerBlock` 4-byte entries of the
pointer block at byte offset `blkOff`, stop at a zero entry, otherwise
visit the subtree below the entry through `f` and continue with the next
entry.  The fuel is exactly the remaining entry count, so it never runs
out. -/
def indirLoop {α : Type} (dev : Nat → Nat) (f : Nat → List α) (blkOff : Nat) :
    Nat → Nat → List α
  | _, 0 => []
  | i, fuel + 1 =>
    if readU32 dev (blkOff + 4 * i) = 0 then []
    else f (readU32 dev (blkOff + 4 * i)) ++ indirLoop dev f blkOff (i + 1) fuel

/-- `_ext2_indir_print` generalised over the visitor: at indirection
level 0 the block is a leaf data block and the visitor is applied; at
level `l + 1` the block is a pointer block scanned by `indirLoop`.  The
source's `indir_level` values 1, 2, 3 coincide with the level here. -/
def indirWalk {α : Type} (dev : Nat → Nat) (bs N : Nat) (leaf : Nat → List α) :
    Nat → Nat → List α
  | blk, 0 => leaf blk
  | blk, l + 1 => indirLoop dev (fun b => indirWalk dev bs N leaf b l) (blk * bs) 0 N

/-- The 15-slot loop of `_ext2_print_ino_data` (src/ext2.c:607-631),
generalised over the visitor: stop at the first zero `i_block` slot;
slots 0-11 are direct data blocks, slot 12/13/14 are the roots of the
single/double/triple indirect trees. -/
def inoWalk {α : Type} (dev : Nat → Nat) (bs N : Nat) (leaf : Nat → List α)
    (iblk : List Nat) : Nat → Nat → List α
  | _, 0 => []
  | i, fuel + 1 =>
    if iblk.getD i 0 = 0 then []
    else
      (if i < 12 then leaf (iblk.getD i 0)
       else if i = 12 then indirWalk dev bs N leaf (iblk.getD i 0) 1
       else if i = 13 then indirWalk dev bs N leaf (iblk.getD i 0) 2
       else indirWalk dev bs N leaf (iblk.getD i 0) 3) ++
        inoWalk dev bs N leaf iblk (i + 1) fuel

/-- The sequence of leaf data blocks visited when `_ext2_print_ino_data`
enumerates the blocks reachable from `iblk`, in visit order. -/
def printInoDataBlocks (dev : Nat → Nat) (sb : SuperBlock) (iblk : List Nat) : List Nat :=
  inoWalk dev (blockSize sb) (addrPerBlock sb) (fun b => [b]) iblk 0 15

/-- The byte loop of `_ext2_dir_print_reg_file` (src/ext2.c:474-481):
emit each of the remaining `fuel` bytes starting at `blkOff + i`. -/
def regFileLoop (dev : Nat → Nat) (blkOff : Nat) : Nat → Nat → List Nat
  | _, 0 => []
  | i, fuel + 1 => dev (blkOff + i) % 256 :: regFileLoop dev blkOff (i + 1) fuel

/-- `_ext2_dir_print_reg_file`: emits all `block_size` bytes of data
block `blk` verbatim. -/
def ext2_dir_print_reg_file (dev : Nat → Nat) (sb : SuperBlock) (blk : Nat) : List Nat :=
  regFileLoop dev (blk * blockSize sb) 0 (blockSize sb)

/-- The byte stream `_ext2_print_ino_data` writes for a regular-file
inode: the traversal of `i_block` with `_ext2_dir_print_reg_file` as the
visitor at every leaf data block. -/
def ext2_print_ino_data_reg (dev : Nat → Nat) (sb : SuperBlock) (st : Inode) : List Nat :=
  inoWalk dev (blockSize sb) (addrPerBlock sb) (ext2_dir_print_reg_file dev sb) st.i_block 0 15

/-- Modelled from the spec: the pointer loop under the reading of §4.6 by
which "a zero block number terminates enumeration at any level" — the
boolean component records that a zero was met, and once it is set no
further pointer anywhere is followed. -/
def specIndirLoop (dev : Nat → Nat) (f : Nat → List Nat × Bool) (blkOff : Nat) :
    Nat → Nat → List Nat × Bool
  | _, 0 => ([], false)
  | i, fuel + 1 =>
    if readU32 dev (blkOff + 4 * i) = 0 then ([], true)
    else
      let q := f (readU32 dev (blkOff + 4 * i))
      if q.2 then q
      else
        let w := specIndirLoop dev f blkOff (i + 1) fuel
        (q.1 ++ w.1, w.2)

/-- Modelled from the spec: indirect walk with the global first-zero
stop of §4.6. -/
def specIndirWalk (dev : Nat → Nat) (bs N : Nat) : Nat → Nat → List Nat × Bool
  | blk, 0 => ([blk], false)
  | blk, l + 1 => specIndirLoop dev (fun b => specIndirWalk dev bs N b l) (blk * bs) 0 N

/-- Modelled from the spec: the 15-slot loop with the global first-zero
stop of §4.6. -/
def specInoWalk (dev : Nat → Nat) (bs N : Nat) (iblk : List Nat) :
    Nat → Nat → List Nat × Bool
  | _, 0 => ([], false)
  | i, fuel + 1 =>
    if iblk.getD i 0 = 0 then ([], true)
    else
      let q :=
        if i < 12 then ((([iblk.getD i 0] : List Nat), false))
        else if i = 12 then specIndirWalk dev bs N (iblk.getD i 0) 1
        else if i = 13 then specIndirWalk dev bs N (iblk.getD i 0) 2
        else specIndirWalk dev bs N (iblk.getD i 0) 3
      if q.2 then q
      else
        let w := specInoWalk dev bs N iblk (i + 1) fuel
        (q.1 ++ w.1, w.2)

/-- Modelled from the spec: the enumeration that stops globally at the
first zero block number encountered at any level. -/
def specEnumBlocks (dev : Nat → Nat) (sb : SuperBlock) (iblk : List Nat) : List Nat :=
  (specInoWalk dev (blockSize sb) (addrPerBlock sb) iblk 0 15).1

/-- Concatenation of the per-element lists, in order (the byte stream a
visitor emits over a sequence of visited blocks). -/
def concatMap {α : Type} (g : Nat → List α) : List Nat → List α
  | [] => []
  | b :: bs => g b ++ concatMap g bs

/-- The per-slot leaf-count limit of the `i_block` traversal:
1 for a direct slot, `N`, `N^2`, `N^3` for the indirect roots. -/
def slotBound (N i : Nat) : Nat :=
  if i < 12 then 1 else if i = 12 then N else if i = 13 then N ^ 2 else N ^ 3

/-- Sum of `slotBound` over `fuel` consecutive slots starting at `i`. -/
def slotBoundSum (N : Nat) : Nat → Nat → Nat
  | _, 0 => 0
  | i, fuel + 1 => slotBound N i + slotBoundSum N (i + 1) fuel

/-- `_ft_to_str`, the 8-entry (`EXT2_FT_MAX`) file-type string table of
src/ext2.c:115-117. -/
def ftToStrTab : List String :=
  ["Unknown  ", "Regular  ", "Directory", "Character", "Block    ",
   "Fifo     ", "Socket   ", "Softlink "]

/-- The table lookup `_ft_to_str[dir_ent.file_type]` modelled as an
`Option`-returning index: `none` is an out-of-bounds access. -/
def ftLookup (ft : Nat) : Option String := ftToStrTab.get? ft

/-- One output line of `_ext2_dir_print_dir` for an entry: inode number,
file-type string (through the table lookup), name bytes. -/
def dirPrintLine (e : DirEnt) : Option (Nat × String × List Nat) :=
  (ftLookup e.file_type).map (fun s => (e.inode, s, e.name))

/-- `_get_toks` with delimiter `'/'` (byte 47): the `strtok_r` loop,
which treats runs of delimiters as one and produces no empty tokens. -/
def getToksAux : List Nat → List Nat → List (List Nat)
  | acc, [] => if acc = [] then [] else [acc.reverse]
  | acc, c :: rest =>
    if c = 47 then
      (if acc = [] then getToksAux [] rest else acc.reverse :: getToksAux [] rest)
    else getToksAux (c :: acc) rest

/-- The token list of a path: split on `'/'`, empty components dropped. -/
def getToks (path : List Nat) : List (List Nat) := getToksAux [] path

/-- The token loop of `ext2_path_to_ino` (src/ext2.c:388-397): starting
from the current inode, look each token up with `f`; a lookup result
below `EXT2_ROOT_INO = 2` aborts with the "File search failed" exit
(`none` here); `none` from `f` is a propagated abort. -/
def pathToInoToks (f : Nat → List Nat → Option Nat) : Nat → List (List Nat) → Option Nat
  | ino, [] => some ino
  | ino, t :: ts =>
    match f ino t with
    | none => none
    | some n => if n < 2 then none else pathToInoToks f n ts

/-- The pointer loop of `_ext2_indir_search` (src/ext2.c:273-303): for
each entry, a zero pointer returns `EXT2_BAD_INO = 1`; otherwise the
subtree is searched through `f`, a result above `EXT2_BAD_INO` is
returned, anything else moves to the next entry; exhausting the block
returns `EXT2_BAD_INO`.  `none` propagates a diverging inner search. -/
def indirSearchLoop (dev : Nat → Nat) (f : Nat → Option Nat) (blkOff : Nat) :
    Nat → Nat → Option Nat
  | _, 0 => some 1
  | i, fuel + 1 =>
    if readU32 dev (blkOff + 4 * i) = 0 then some 1
    else
      match f (readU32 dev (blkOff + 4 * i)) with
      | none => none
      | some v => if 1 < v then some v else indirSearchLoop dev f blkOff (i + 1) fuel

/-- `_ext2_indir_search` (level 0 standing for the direct search of a
leaf directory data block, as in `indirWalk`). -/
def ext2_indir_search (dev : Nat → Nat) (sb : SuperBlock) (arg : List Nat) :
    Nat → Nat → Option Nat
  | blk, 0 => ext2_dir_search dev sb blk arg
  | blk, l + 1 =>
    indirSearchLoop dev (fun b => ext2_indir_search dev sb arg b l)
      (blk * blockSize sb) 0 (addrPerBlock sb)

/-- The 15-slot loop of `_ext2_nxt_ino` (src/ext2.c:333-363): stop with
`EXT2_BAD_INO = 1` at the first zero slot or when the slots run out;
otherwise search the slot's subtree and return any result above
`EXT2_BAD_INO`. -/
def nxtInoLoop (dev : Nat → Nat) (sb : SuperBlock) (arg : List Nat) (iblk : List Nat) :
    Nat → Nat → Option Nat
  | _, 0 => some 1
  | i, fuel + 1 =>
    if iblk.getD i 0 = 0 then some 1
    else
      match
        (if i < 12 then ext2_dir_search dev sb (iblk.getD i 0) arg
         else if i = 12 then ext2_indir_search dev sb arg (iblk.getD i 0) 1
         else if i = 13 then ext2_indir_search dev sb arg (iblk.getD i 0) 2
         else ext2_indir_search dev sb arg (iblk.getD i 0) 3) with
      | none => none
      | some v => if 1 < v then some v else nxtInoLoop dev sb arg iblk (i + 1) fuel

/-- `_ext2_nxt_ino`: load the parent inode; a parent whose mode top
nibble is not `0x4000` aborts the process ("non-directory files",
`none` here); otherwise scan the 15 block slots for the child. -/
def ext2_nxt_ino (dev : Nat → Nat) (sb : SuperBlock) (ino : Nat) (arg : List Nat) :
    Option Nat :=
  if (ext2_ino_to_ino_st dev sb ino).i_mode &&& 0xF000 = 0x4000 then
    nxtInoLoop dev sb arg (ext2_ino_to_ino_st dev sb ino).i_block 0 15
  else none

/-- `ext2_path_to_ino`: tokenize the path on `'/'` and fold the
per-component lookup starting from `EXT2_ROOT_INO = 2`. -/
def ext2_path_to_ino (dev : Nat → Nat) (sb : SuperBlock) (path : List Nat) : Option Nat :=
  pathToInoToks (ext2_nxt_ino dev sb) 2 (getToks path)

/-- A 1024-byte-block volume: `s_log_block_size = 0`, 8 inodes per group,
revision 1 with 128-byte inodes, valid magic. -/
def sbB : SuperBlock := SuperBlock.mk 0 8 1 128 0xEF53

/-- A 2048-byte-block volume. -/
def sb2048 : SuperBlock := SuperBlock.mk 1 8 1 128 0xEF53

/-- The all-zero device image. -/
def devZero : Nat → Nat := fun _ => 0

/-- A device whose block 0 is a directory data block holding the single
entry `inode = 5`, `rec_len = 1024`, `name_len = 3`, name `"foo"`. -/
def devC1 : Nat → Nat := fun a =>
  if a = 0 then 5
  else if a = 5 then 4
  else if a = 6 then 3
  else if a = 7 then 1
  else if a = 8 then 102
  else if a = 9 then 111
  else if a = 10 then 111
  else 0

/-- A device whose block 0 is a directory data block holding the single
tombstone entry `inode = 0`, `rec_len = 1024`, `name_len = 3`, name
`"bar"`. -/
def devC1b : Nat → Nat := fun a =>
  if a = 5 then 4
  else if a = 6 then 3
  else if a = 8 then 98
  else if a = 9 then 97
  else if a = 10 then 114
  else 0

/-- A device (for a 1024-byte-block volume) where pointer block 20 starts
with a zero entry, pointer block 30 points to pointer block 21, and
pointer block 21 points to data block 200. -/
def devC4 : Nat → Nat := fun a =>
  if a = 30720 then 21 else if a = 21504 then 200 else 0

/-- An `i_block` array: twelve direct blocks, single-indirect root 20
(whose first pointer is zero), double-indirect root 30 (below which data
block 200 is reachable), no triple-indirect root. -/
def iblkC4 : List Nat := [1, 2, 3, 4, 5, 6, 7, 8, 9, 10, 11, 12, 20, 30, 0]

/-- A directory data block at offset 0 laid out as two entries with
record lengths 12 and 1012 (summing to the block size 1024). -/
def devC6 : Nat → Nat := fun a =>
  if a = 4 then 12 else if a = 16 then 244 else if a = 17 then 3 else 0

/-- A device with a directory entry of `file_type = 9` at offset 0 and
one of `file_type = 2` at offset 1024. -/
def devFT : Nat → Nat := fun a =>
  if a = 7 then 9 else if a = 1031 then 2 else 0

/-- A regular-file inode (`i_mode = 0x8000`, `i_size = 14`) with an empty
block list. -/
def st7 : Inode := Inode.mk 0x8000 14 (List.replicate 15 0)

theorem concatMap_append {α : Type} (g : Nat → List α) (l₁ l₂ : List Nat) :
    concatMap g (l₁ ++ l₂) = concatMap g l₁ ++ concatMap g l₂ := by
  induction l₁ with
  | nil => simp [concatMap]
  | cons b bs ih => simp [concatMap, ih]

theorem concatMap_singleton {α : Type} (g : Nat → List α) (b : Nat) :
    concatMap g [b] = g b := by
  simp [concatMap]

theorem indirLoop_concatMap {α : Type} (dev : Nat → Nat) (g : Nat → List α)
    (f2 : Nat → List Nat) (f1 : Nat → List α)
    (hf : ∀ b, f1 b = concatMap g (f2 b)) (blkOff : Nat) :
    ∀ (fuel i : Nat),
      indirLoop dev f1 blkOff i fuel = concatMap g (indirLoop dev f2 blkOff i fuel) := by
  intro fuel
  induction fuel with
  | zero => intro i; simp [indirLoop, concatMap]
  | succ n ih =>
    intro i
    by_cases h : readU32 dev (blkOff + 4 * i) = 0
    · simp [indirLoop, h, concatMap]
    · simp [indirLoop, h, hf, ih, concatMap_append]

theorem indirWalk_concatMap {α : Type} (dev : Nat → Nat) (bs N : Nat)
    (leaf : Nat → List α) :
    ∀ (l blk : Nat),
      indirWalk dev bs N leaf blk l =
        concatMap leaf (indirWalk dev bs N (fun b => [b]) blk l) := by
  intro l
  induction l with
  | zero => intro blk; simp [indirWalk, concatMap_singleton]
  | succ n ih =>
    intro blk
    simp only [indirWalk]
    exact indirLoop_concatMap dev leaf _ _ ih (blk * bs) N 0

theorem inoWalk_concatMap {α : Type} (dev : Nat → Nat) (bs N : Nat)
    (leaf : Nat → List α) (iblk : List Nat) :
    ∀ (fuel i : Nat),
      inoWalk dev bs N leaf iblk i fuel =
        concatMap leaf (inoWalk dev bs N (fun b => [b]) iblk i fuel) := by
  intro fuel
  induction fuel with
  | zero => intro i; simp [inoWalk, concatMap]
  | succ n ih =>
    intro i
    simp only [inoWalk]
    by_cases hb : iblk.getD i 0 = 0
    · rw [if_pos hb, if_pos hb]; simp [concatMap]
    · rw [if_neg hb, if_neg hb, concatMap_append, ih]
      congr 1
      by_cases h12 : i < 12
      · rw [if_pos h12, if_pos h12, concatMap_singleton]
      · by_cases he12 : i = 12
        · rw [if_neg h12, if_neg h12, if_pos he12, if_pos he12]
          exact indirWalk_concatMap dev bs N leaf 1 _
        · by_cases he13 : i = 13
          · rw [if_neg h12, if_neg h12, if_neg he12, if_neg he12, if_pos he13, if_pos he13]
            exact indirWalk_concatMap dev bs N leaf 2 _
          · rw [if_neg h12, if_neg h12, if_neg he12, if_neg he12, if_neg he13, if_neg he13]
            exact indirWalk_concatMap dev bs N leaf 3 _

theorem concatMap_const_length {α : Type} (g : Nat → List α) (B : Nat)
    (hg : ∀ b, (g b).length = B) :
    ∀ l : List Nat, (concatMap g l).length = B * l.length := by
  intro l
  induction l with
  | nil => simp [concatMap]
  | cons b bs ih =>
    simp [concatMap, hg, ih, Nat.mul_succ, Nat.add_comm]

theorem regFileLoop_length (dev : Nat → Nat) (blkOff : Nat) :
    ∀ (fuel i : Nat), (regFileLoop dev blkOff i fuel).length = fuel := by
  intro fuel
  induction fuel with
  | zero => intro i; simp [regFileLoop]
  | succ n ih => intro i; simp [regFileLoop, ih]

theorem indirLoop_length_le {α : Type} (dev : Nat → Nat) (f : Nat → List α)
    (blkOff M : Nat) (hf : ∀ b, (f b).length ≤ M) :
    ∀ (fuel i : Nat), (indirLoop dev f blkOff i fuel).length ≤ fuel * M := by
  intro fuel
  induction fuel with
  | zero => intro i; simp [indirLoop]
  | succ n ih =>
    intro i
    by_cases h : readU32 dev (blkOff + 4 * i) = 0
    · simp [indirLoop, h]
    · simp only [indirLoop, if_neg h, List.length_append]
      calc (f (readU32 dev (blkOff + 4 * i))).length + (indirLoop dev f blkOff (i + 1) n).length
          ≤ M + n * M := Nat.add_le_add (hf _) (ih _)
        _ = (n + 1) * M := by ring

theorem indirWalk_blocks_length_le (dev : Nat → Nat) (bs N : Nat) :
    ∀ (l blk : Nat), (indirWalk dev bs N (fun b => ([b] : List Nat)) blk l).length ≤ N ^ l := by
  intro l
  induction l with
  | zero => intro blk; simp [indirWalk]
  | succ n ih =>
    intro blk
    simp only [indirWalk]
    calc (indirLoop dev (fun b => indirWalk dev bs N (fun b2 => [b2]) b n) (blk * bs) 0 N).length
        ≤ N * N ^ n := indirLoop_length_le dev _ (blk * bs) (N ^ n) ih N 0
      _ = N ^ (n + 1) := by ring

theorem inoWalk_blocks_length_le (dev : Nat → Nat) (bs N : Nat) (iblk : List Nat) :
    ∀ (fuel i : Nat),
      (inoWalk dev bs N (fun b => ([b] : List Nat)) iblk i fuel).length ≤ slotBoundSum N i fuel := by
  intro fuel
  induction fuel with
  | zero => intro i; simp [inoWalk]
  | succ n ih =>
    intro i
    simp only [inoWalk]
    by_cases hb : iblk.getD i 0 = 0
    · rw [if_pos hb]; simp
    · rw [if_neg hb, List.length_append]
      simp only [slotBoundSum]
      refine Nat.add_le_add ?_ (ih (i + 1))
      by_cases h12 : i < 12
      · rw [if_pos h12]; simp [slotBound, h12]
      · by_cases he12 : i = 12
        · rw [if_neg h12, if_pos he12]
          have h := indirWalk_blocks_length_le dev bs N 1 (iblk.getD i 0)
          simp only [pow_one] at h
          simpa [slotBound, h12, he12] using h
        · by_cases he13 : i = 13
          · rw [if_neg h12, if_neg he12, if_pos he13]
            have h := indirWalk_blocks_length_le dev bs N 2 (iblk.getD i 0)
            simpa [slotBound, h12, he12, he13] using h
          · rw [if_neg h12, if_neg he12, if_neg he13]
            have h := indirWalk_blocks_length_le dev bs N 3 (iblk.getD i 0)
            simpa [slotBound, h12, he12, he13] using h

theorem slotBoundSum_full (N : Nat) : slotBoundSum N 0 15 = 12 + N + N ^ 2 + N ^ 3 := by
  norm_num [slotBoundSum, slotBound]
  ring

theorem notMem_cons_pos {r : Nat} {rs : List Nat} (h : 0 ∉ r :: rs) :
    0 < r ∧ 0 ∉ rs := by
  constructor
  · rcases Nat.eq_zero_or_pos r with h0 | h0
    · exact absurd (by simp [h0]) h
    · exact h0
  · exact fun hm => h (List.mem_cons_of_mem _ hm)

theorem agrees_cons {recAt : Nat → Nat} {cur r : Nat} {rs : List Nat}
    (h : agrees recAt cur (r :: rs) = true) :
    recAt cur = r ∧ agrees recAt (cur + r) rs = true := by
  simpa [agrees, Bool.and_eq_true] using h

theorem scanOffsets_core (recAt : Nat → Nat) (B : Nat) :
    ∀ (rs : List Nat) (cur extra : Nat), 0 ∉ rs → agrees recAt cur rs = true →
      cur + rs.sum = B →
      dirScanOffsets recAt B cur (rs.length + 1 + extra) = offsetsOf rs cur := by
  intro rs
  induction rs with
  | nil =>
    intro cur extra _ _ hsum
    have hcur : cur = B := by simpa using hsum
    have hfuel : ([] : List Nat).length + 1 + extra = extra + 1 := by
      rw [List.length_nil]; omega
    rw [hfuel, hcur]
    simp [dirScanOffsets, offsetsOf]
  | cons r rs ih =>
    intro cur extra hpos hag hsum
    obtain ⟨hr, hrs⟩ := notMem_cons_pos hpos
    obtain ⟨hhead, htail⟩ := agrees_cons hag
    have hcur : cur < B := by
      simp only [List.sum_cons] at hsum; omega
    have hfuel : (r :: rs).length + 1 + extra = (rs.length + 1 + extra) + 1 := by
      rw [List.length_cons]; omega
    rw [hfuel]
    simp only [dirScanOffsets, if_pos hcur, hhead, offsetsOf]
    rw [ih (cur + r) extra hrs htail (by simp only [List.sum_cons] at hsum; omega)]

theorem scanFinal_core (recAt : Nat → Nat) (B : Nat) :
    ∀ (rs : List Nat) (cur extra : Nat), 0 ∉ rs → agrees recAt cur rs = true →
      cur + rs.sum = B →
      dirScanFinal recAt B cur (rs.length + 1 + extra) = B := by
  intro rs
  induction rs with
  | nil =>
    intro cur extra _ _ hsum
    have hcur : cur = B := by simpa using hsum
    have hfuel : ([] : List Nat).length + 1 + extra = extra + 1 := by
      rw [List.length_nil]; omega
    rw [hfuel, hcur]
    simp [dirScanFinal]
  | cons r rs ih =>
    intro cur extra hpos hag hsum
    obtain ⟨hr, hrs⟩ := notMem_cons_pos hpos
    obtain ⟨hhead, htail⟩ := agrees_cons hag
    have hcur : cur < B := by
      simp only [List.sum_cons] at hsum; omega
    have hfuel : (r :: rs).length + 1 + extra = (rs.length + 1 + extra) + 1 := by
      rw [List.length_cons]; omega
    rw [hfuel]
    simp only [dirScanFinal, if_pos hcur, hhead]
    exact ih (cur + r) extra hrs htail (by simp only [List.sum_cons] at hsum; omega)

theorem printLoop_core (dev : Nat → Nat) (blkOff B : Nat) :
    ∀ (rs : List Nat) (cur extra : Nat), 0 ∉ rs →
      agrees (fun c => (readDirEnt dev (blkOff + c)).rec_len) cur rs = true →
      cur + rs.sum = B →
      dirPrintDirLoop dev blkOff B cur (rs.length + 1 + extra) =
        (offsetsOf rs cur).map (fun c => readDirEnt dev (blkOff + c)) := by
  intro rs
  induction rs with
  | nil =>
    intro cur extra _ _ hsum
    have hcur : cur = B := by simpa using hsum
    have hfuel : ([] : List Nat).length + 1 + extra = extra + 1 := by
      rw [List.length_nil]; omega
    rw [hfuel, hcur]
    simp [dirPrintDirLoop, offsetsOf]
  | cons r rs ih =>
    intro cur extra hpos hag hsum
    obtain ⟨hr, hrs⟩ := notMem_cons_pos hpos
    obtain ⟨hhead, htail⟩ := agrees_cons hag
    have hcur : cur < B := by
      simp only [List.sum_cons] at hsum; omega
    have hfuel : (r :: rs).length + 1 + extra = (rs.length + 1 + extra) + 1 := by
      rw [List.length_cons]; omega
    rw [hfuel]
    simp only [dirPrintDirLoop, if_pos hcur, offsetsOf, List.map_cons]
    rw [hhead, ih (cur + r) extra hrs htail (by simp only [List.sum_cons] at hsum; omega)]

theorem searchLoop_core (dev : Nat → Nat) (blkOff B : Nat) (arg : List Nat) :
    ∀ (rs : List Nat) (cur extra : Nat), 0 ∉ rs →
      agrees (fun c => (readDirEnt dev (blkOff + c)).rec_len) cur rs = true →
      cur + rs.sum = B →
      (dirSearchLoop dev blkOff B arg cur (rs.length + 1 + extra)).isSome = true := by
  intro rs
  induction rs with
  | nil =>
    intro cur extra _ _ hsum
    have hcur : cur = B := by simpa using hsum
    have hfuel : ([] : List Nat).length + 1 + extra = extra + 1 := by
      rw [List.length_nil]; omega
    rw [hfuel, hcur]
    simp [dirSearchLoop]
  | cons r rs ih =>
    intro cur extra hpos hag hsum
    obtain ⟨hr, hrs⟩ := notMem_cons_pos hpos
    obtain ⟨hhead, htail⟩ := agrees_cons hag
    have hcur : cur < B := by
      simp only [List.sum_cons] at hsum; omega
    have hfuel : (r :: rs).length + 1 + extra = (rs.length + 1 + extra) + 1 := by
      rw [List.length_cons]; omega
    rw [hfuel]
    simp only [dirSearchLoop, if_pos hcur]
    by_cases hm : memcmpMatch arg (readDirEnt dev (blkOff + cur)).name
        (readDirEnt dev (blkOff + cur)).name_len = true
    · simp [hm]
    · rw [if_neg hm, hhead]
      exact ih (cur + r) extra hrs htail (by simp only [List.sum_cons] at hsum; omega)

theorem getToksAux_leading (p : List Nat) : getToksAux [] (47 :: p) = getToksAux [] p := by
  simp [getToksAux]

theorem getToksAux_trailing : ∀ (p acc : List Nat),
    getToksAux acc (p ++ [47]) = getToksAux acc p := by
  intro p
  induction p with
  | nil =>
    intro acc
    by_cases ha : acc = []
    · simp [getToksAux, ha]
    · simp [getToksAux, ha]
  | cons c cs ih =>
    intro acc
    by_cases hc : c = 47
    · by_cases ha : acc = []
      · simp [getToksAux, hc, ha, ih]
      · simp [getToksAux, hc, ha, ih]
    · simp [getToksAux, hc, ih]

theorem getToksAux_dslash : ∀ (a : List Nat) (acc b : List Nat),
    getToksAux acc (a ++ 47 :: 47 :: b) = getToksAux acc (a ++ 47 :: b) := by
  intro a
  induction a with
  | nil =>
    intro acc b
    by_cases ha : acc = []
    · simp [getToksAux, ha]
    · simp [getToksAux, ha]
  | cons c cs ih =>
    intro acc b
    by_cases hc : c = 47
    · by_cases ha : acc = []
      · simp [getToksAux, hc, ha, ih]
      · simp [getToksAux, hc, ha, ih]
    · simp [getToksAux, hc, ih]

theorem pathToInoToks_ge (f : Nat → List Nat → Option Nat) :
    ∀ (toks : List (List Nat)) (ino r : Nat), 2 ≤ ino →
      pathToInoToks f ino toks = some r → 2 ≤ r := by
  intro toks
  induction toks with
  | nil =>
    intro ino r h2 h
    simp only [pathToInoToks, Option.some_inj] at h
    omega
  | cons t ts ih =>
    intro ino r h2 h
    simp only [pathToInoToks] at h
    cases hf : f ino t with
    | none => rw [hf] at h; simp at h
    | some n =>
      rw [hf] at h
      dsimp only at h
      by_cases hn : n < 2
      · rw [if_pos hn] at h; exact absurd h (by simp)
      · rw [if_neg hn] at h
        exact ih n r (by omega) h

theorem u64_pred_mod (ino : Nat) (h1 : 1 ≤ ino) (h2 : ino < M64) :
    (ino + (M64 - 1)) % M64 = ino - 1 := by
  have hM : 0 < M64 := by norm_num [M64]
  have hsplit : ino + (M64 - 1) = (ino - 1) + M64 := by omega
  rw [hsplit, Nat.add_mod_right]
  exact Nat.mod_eq_of_lt (by omega)

/-- Claim C1.  The claim states that `_ext2_dir_search` returns a child
inode at a cursor position iff the entry there has `inode ≠ 0`,
`name_len` equal to the search name's length, and matching name bytes,
skipping `inode = 0` tombstones.  The code performs neither check: it
compares only the entry's own `name_len` bytes, so a search for
`"foobar"` is answered by the entry `"foo"` (whose `name_len` 3 differs
from the search length 6), and a matching tombstone entry has its
`inode = 0` returned rather than being skipped. -/
theorem c1_dir_search_eval :
    ext2_dir_search devC1 sbB 0 [102, 111, 111, 98, 97, 114] = some 5
    ∧ (readDirEnt devC1 0).name_len = 3
    ∧ ([102, 111, 111, 98, 97, 114] : List Nat).length = 6
    ∧ (readDirEnt devC1 0).name = [102, 111, 111]
    ∧ ext2_dir_search devC1b sbB 0 [98, 97, 114] = some 0
    ∧ (readDirEnt devC1b 0).inode = 0 := by
  decide

/-- Claim C2.  The inode loader uses group `(ino - 1) / inodes_per_group`
as the claim says, but reads the group descriptor at
`block_size + group * 32` for every block size: for block size 1024 that
is byte 1024, not the byte 2048 required by the claim (and by the on-disk
format, as spec §9 itself records); for block sizes ≥ 2048 the code and
the claim agree. -/
theorem c2_grp_desc_eval :
    grpNb sbB 25 = 3
    ∧ grpDescOff sbB 0 = 1024
    ∧ grpDescOffSpec sbB 0 = 2048
    ∧ grpDescOff sbB 0 ≠ grpDescOffSpec sbB 0
    ∧ grpDescOff sb2048 5 = 2208
    ∧ grpDescOffSpec sb2048 5 = 2208 := by
  decide

/-- Claim C3, counterexample.  On the all-zero device the superblock
magic is 0, yet `ext2_init` succeeds: the source never compares
`s_magic` with 0xEF53, so opening does not fail with `NotExt2` on a
non-ext2 image. -/
theorem c3_no_magic_check_counter :
    (parseSuperBlock devZero).s_magic = 0
    ∧ (parseSuperBlock devZero).s_magic ≠ 0xEF53
    ∧ ext2_init devZero = Except.ok (parseSuperBlock devZero) := by
  exact ⟨by decide, by decide, rfl⟩

/-- Claim C3, amended.  `ext2_init` reads the superblock (with `s_magic`
at byte 1024 + 56 = 1080) and performs no magic validation: it returns
the parsed superblock for every device image, never the `NotExt2`
failure, even when the magic differs from 0xEF53. -/
theorem c3_init_amended (dev : Nat → Nat) :
    ext2_init dev = Except.ok (parseSuperBlock dev)
    ∧ (parseSuperBlock dev).s_magic = readU16 dev 1080 := by
  exact ⟨rfl, rfl⟩

/-- Claim C4, counterexample.  On `devC4`/`iblkC4` the enumeration meets
a zero pointer (first entry of pointer block 20, reached from slot 12)
and nevertheless goes on to visit data block 200 under slot 13, so it
differs from the spec-modelled enumeration that stops globally at the
first zero block number at any level. -/
theorem c4_zero_stop_counter :
    printInoDataBlocks devC4 sbB iblkC4 ≠ specEnumBlocks devC4 sbB iblkC4
    ∧ (200 : Nat) ∈ printInoDataBlocks devC4 sbB iblkC4
    ∧ readU32 devC4 (20 * 1024 + 4 * 0) = 0 := by
  decide

/-- Claim C4, amended.  For every device and every `i_block` array, the
enumeration visits at most `12 + N + N^2 + N^3` leaf data blocks where
`N = addresses_per_block` (unconditionally); a zero entry terminates the
scan of the pointer block containing it (no later entry of that same
block is read); and at the top level the first zero `i_block` slot stops
the whole enumeration.  A zero at a deeper level, however, only prunes
that subtree — the enclosing block's scan resumes with its next pointer,
so enumeration does not stop globally (the counterexample). -/
theorem c4_enum_bound_amended (dev : Nat → Nat) (sb : SuperBlock) (iblk : List Nat) :
    (printInoDataBlocks dev sb iblk).length ≤
      12 + addrPerBlock sb + addrPerBlock sb ^ 2 + addrPerBlock sb ^ 3
    ∧ (∀ (f : Nat → List Nat) (off i fuel : Nat), readU32 dev (off + 4 * i) = 0 →
        indirLoop dev f off i (fuel + 1) = [])
    ∧ (∀ (leaf : Nat → List Nat) (i fuel : Nat), iblk.getD i 0 = 0 →
        inoWalk dev (blockSize sb) (addrPerBlock sb) leaf iblk i (fuel + 1) = []) := by
  refine ⟨?_, ?_, ?_⟩
  · calc (printInoDataBlocks dev sb iblk).length
        ≤ slotBoundSum (addrPerBlock sb) 0 15 :=
          inoWalk_blocks_length_le dev (blockSize sb) (addrPerBlock sb) iblk 15 0
      _ = 12 + addrPerBlock sb + addrPerBlock sb ^ 2 + addrPerBlock sb ^ 3 :=
          slotBoundSum_full (addrPerBlock sb)
  · intro f off i fuel h
    simp [indirLoop, h]
  · intro leaf i fuel h
    simp only [inoWalk]
    rw [if_pos h]

/-- Claim C4, witness for the amended claim at concrete inputs: the bound
on the all-zero device with an empty `i_block` array, pointer block 0 of
the all-zero device stopping at its first (zero) entry, and the top-level
loop stopping at a zero slot. -/
theorem c4_enum_bound_witness :
    (printInoDataBlocks devZero sbB []).length ≤
        12 + addrPerBlock sbB + addrPerBlock sbB ^ 2 + addrPerBlock sbB ^ 3
    ∧ (readU32 devZero (0 + 4 * 0) = 0
      ∧ indirLoop devZero (fun b => ([b] : List Nat)) 0 0 (0 + 1) = [])
    ∧ (([] : List Nat).getD 0 0 = 0
      ∧ inoWalk devZero (blockSize sbB) (addrPerBlock sbB)
          (fun b => ([b] : List Nat)) [] 0 (0 + 1) = []) := by
  have h2 : readU32 devZero (0 + 4 * 0) = 0 := by decide
  have h3 : ([] : List Nat).getD 0 0 = 0 := by decide
  exact ⟨(c4_enum_bound_amended devZero sbB []).1,
    ⟨h2, (c4_enum_bound_amended devZero sbB []).2.1 (fun b => [b]) 0 0 0 h2⟩,
    ⟨h3, (c4_enum_bound_amended devZero sbB []).2.2 (fun b => [b]) 0 0 h3⟩⟩

/-- Claim C5, counterexample.  Loading inode 0 does not fail: the `_u64`
subtraction wraps, giving group `(2^64 - 1) / 8` and index 7 on the
8-inodes-per-group volume `sbB`, and `_ext2_ino_to_ino_st` duly reads a
record (here the zero record at offset 896 of the all-zero device)
instead of returning a `BadInode` failure. -/
theorem c5_ino_zero_counter :
    grpNb sbB 0 = 2305843009213693951
    ∧ grpDescOff sbB (grpNb sbB 0) = 992
    ∧ inoIdx sbB 0 = 7
    ∧ inoOff devZero sbB 0 = 896
    ∧ ext2_ino_to_ino_st devZero sbB 0 = Inode.mk 0 0 (List.replicate 15 0) := by
  decide

/-- Claim C5, amended.  `_ext2_ino_to_ino_st` has no failure path at all
(no `ino = 0` or range check); for every `ino ≥ 1` that fits in `_u64`
and whose computed offset does not overflow, the inode record is read at
`inode_table_block * block_size + ((ino - 1) mod inodes_per_group) *
inode_size`, exactly as the second half of the claim states. -/
theorem c5_ino_off_amended (dev : Nat → Nat) (sb : SuperBlock) (ino : Nat)
    (h1 : 1 ≤ ino) (h2 : ino < M64)
    (h4 : inoTabBlk dev sb ino * blockSize sb +
        ((ino - 1) % sb.s_inodes_per_group) * inodeSize sb < M64) :
    inoOff dev sb ino =
      inoTabBlk dev sb ino * blockSize sb +
        ((ino - 1) % sb.s_inodes_per_group) * inodeSize sb := by
  unfold inoOff inoIdx
  rw [u64_pred_mod ino h1 h2]
  exact Nat.mod_eq_of_lt h4

/-- Claim C5, witness for the amended claim at a concrete input. -/
theorem c5_ino_off_witness :
    (1 ≤ 9 ∧ (9 : Nat) < M64
      ∧ inoTabBlk devZero sbB 9 * blockSize sbB +
          ((9 - 1) % sbB.s_inodes_per_group) * inodeSize sbB < M64)
    ∧ inoOff devZero sbB 9 =
        inoTabBlk devZero sbB 9 * blockSize sbB +
          ((9 - 1) % sbB.s_inodes_per_group) * inodeSize sbB := by
  exact ⟨⟨by decide, by decide, by decide⟩,
    c5_ino_off_amended devZero sbB 9 (by decide) (by decide) (by decide)⟩

/-- Claim C6.  For a directory data block whose on-disk record lengths
`rs` are all positive and sum to the block size, the shared cursor scan
terminates within `rs.length` iterations (adding any amount of fuel
changes nothing), the cursor takes exactly the entry offsets (the
partial sums of `rs`), the final cursor is exactly `block_size`, the
printer loop of `_ext2_dir_print_dir` reads exactly the entries at those
offsets, and the lookup loop of `_ext2_dir_search` completes. -/
theorem c6_dir_scan (dev : Nat → Nat) (blkOff B : Nat) (rs : List Nat)
    (extra : Nat) (arg : List Nat)
    (hpos : 0 ∉ rs)
    (hag : agrees (fun c => (readDirEnt dev (blkOff + c)).rec_len) 0 rs = true)
    (hsum : rs.sum = B) :
    dirScanOffsets (fun c => (readDirEnt dev (blkOff + c)).rec_len) B 0
        (rs.length + 1 + extra) = offsetsOf rs 0
    ∧ dirScanFinal (fun c => (readDirEnt dev (blkOff + c)).rec_len) B 0
        (rs.length + 1 + extra) = B
    ∧ dirPrintDirLoop dev blkOff B 0 (rs.length + 1 + extra) =
        (offsetsOf rs 0).map (fun c => readDirEnt dev (blkOff + c))
    ∧ (dirSearchLoop dev blkOff B arg 0 (rs.length + 1 + extra)).isSome = true := by
  have hsum0 : 0 + rs.sum = B := by omega
  exact ⟨scanOffsets_core _ B rs 0 extra hpos hag hsum0,
    scanFinal_core _ B rs 0 extra hpos hag hsum0,
    printLoop_core dev blkOff B rs 0 extra hpos hag hsum0,
    searchLoop_core dev blkOff B arg rs 0 extra hpos hag hsum0⟩

/-- Claim C6, witness at a concrete two-entry block of size 1024. -/
theorem c6_dir_scan_witness :
    ((0 : Nat) ∉ ([12, 1012] : List Nat)
      ∧ agrees (fun c => (readDirEnt devC6 (0 + c)).rec_len) 0 [12, 1012] = true
      ∧ ([12, 1012] : List Nat).sum = 1024)
    ∧ (dirScanOffsets (fun c => (readDirEnt devC6 (0 + c)).rec_len) 1024 0
          (([12, 1012] : List Nat).length + 1 + 0) = offsetsOf [12, 1012] 0
      ∧ dirScanFinal (fun c => (readDirEnt devC6 (0 + c)).rec_len) 1024 0
          (([12, 1012] : List Nat).length + 1 + 0) = 1024
      ∧ dirPrintDirLoop devC6 0 1024 0 (([12, 1012] : List Nat).length + 1 + 0) =
          (offsetsOf [12, 1012] 0).map (fun c => readDirEnt devC6 (0 + c))
      ∧ (dirSearchLoop devC6 0 1024 [] 0
          (([12, 1012] : List Nat).length + 1 + 0)).isSome = true) := by
  have h1 : (0 : Nat) ∉ ([12, 1012] : List Nat) := by decide
  have h2 : agrees (fun c => (readDirEnt devC6 (0 + c)).rec_len) 0 [12, 1012] = true := by
    decide
  have h3 : ([12, 1012] : List Nat).sum = 1024 := by decide
  exact ⟨⟨h1, h2, h3⟩, c6_dir_scan devC6 0 1024 [12, 1012] 0 [] h1 h2 h3⟩

/-- Claim C7.  For a regular-file inode the data printer's output is the
concatenation, in enumeration order, of the full `block_size` bytes of
each enumerated data block: each per-block emission has length exactly
`block_size`, the total output length is `block_size` times the number
of enumerated blocks, and the output is independent of `i_size` (the
slack bytes of the final block are printed). -/
theorem c7_reg_printer (dev : Nat → Nat) (sb : SuperBlock) (st : Inode)
    (hreg : st.i_mode &&& 0xF000 = 0x8000) :
    ext2_print_ino_data_reg dev sb st =
      concatMap (ext2_dir_print_reg_file dev sb) (printInoDataBlocks dev sb st.i_block)
    ∧ (∀ blk, (ext2_dir_print_reg_file dev sb blk).length = blockSize sb)
    ∧ (ext2_print_ino_data_reg dev sb st).length =
        blockSize sb * (printInoDataBlocks dev sb st.i_block).length
    ∧ (∀ sz, ext2_print_ino_data_reg dev sb (Inode.mk st.i_mode sz st.i_block) =
        ext2_print_ino_data_reg dev sb st) := by
  have hlen : ∀ blk, (ext2_dir_print_reg_file dev sb blk).length = blockSize sb :=
    fun blk => regFileLoop_length dev (blk * blockSize sb) (blockSize sb) 0
  have hfac : ext2_print_ino_data_reg dev sb st =
      concatMap (ext2_dir_print_reg_file dev sb) (printInoDataBlocks dev sb st.i_block) :=
    inoWalk_concatMap dev (blockSize sb) (addrPerBlock sb)
      (ext2_dir_print_reg_file dev sb) st.i_block 15 0
  refine ⟨hfac, hlen, ?_, fun sz => rfl⟩
  rw [hfac]
  exact concatMap_const_length _ _ hlen _

/-- Claim C7, witness at a concrete regular-file inode. -/
theorem c7_reg_printer_witness :
    st7.i_mode &&& 0xF000 = 0x8000
    ∧ ext2_print_ino_data_reg devZero sbB st7 =
        concatMap (ext2_dir_print_reg_file devZero sbB) (printInoDataBlocks devZero sbB st7.i_block)
    ∧ (ext2_print_ino_data_reg devZero sbB st7).length =
        blockSize sbB * (printInoDataBlocks devZero sbB st7.i_block).length := by
  have h : st7.i_mode &&& 0xF000 = 0x8000 := by decide
  exact ⟨h, (c7_reg_printer devZero sbB st7 h).1, (c7_reg_printer devZero sbB st7 h).2.2.1⟩

/-- Claim C8.  Path resolution tokenizes on `'/'` discarding empty
components, so a path with no non-empty components resolves to the root
inode 2 (whatever the per-component lookup would do), and leading,
trailing, or doubled slashes do not change the resolution result. -/
theorem c8_path_resolution (dev : Nat → Nat) (sb : SuperBlock) (p a b : List Nat) :
    (getToks p = [] → ext2_path_to_ino dev sb p = some 2)
    ∧ ext2_path_to_ino dev sb (47 :: p) = ext2_path_to_ino dev sb p
    ∧ ext2_path_to_ino dev sb (p ++ [47]) = ext2_path_to_ino dev sb p
    ∧ ext2_path_to_ino dev sb (a ++ 47 :: 47 :: b) = ext2_path_to_ino dev sb (a ++ 47 :: b) := by
  refine ⟨?_, ?_, ?_, ?_⟩
  · intro h
    simp [ext2_path_to_ino, h, pathToInoToks]
  · simp only [ext2_path_to_ino, getToks]
    rw [getToksAux_leading]
  · simp only [ext2_path_to_ino, getToks]
    rw [getToksAux_trailing p []]
  · simp only [ext2_path_to_ino, getToks]
    rw [getToksAux_dslash a [] b]

/-- Claim C8, witness: the path `"/"` has no tokens and resolves to the
root inode without any lookup. -/
theorem c8_path_resolution_witness :
    getToks [47] = [] ∧ ext2_path_to_ino devZero sbB [47] = some 2 := by
  have h : getToks [47] = [] := by decide
  exact ⟨h, (c8_path_resolution devZero sbB [47] [] []).1 h⟩

/-- Claim C9.  The `_ft_to_str` table has exactly `EXT2_FT_MAX = 8`
entries, so the printer's lookup (modelled as an `Option`-returning
index) succeeds exactly under the precondition `file_type < 8` and is
out of bounds for any entry whose on-disk `file_type` byte is ≥ 8. -/
theorem c9_ft_lookup (e : DirEnt) :
    (e.file_type < 8 → (dirPrintLine e).isSome = true)
    ∧ (8 ≤ e.file_type → dirPrintLine e = none) := by
  constructor
  · intro h
    have hlen : e.file_type < ftToStrTab.length := by simpa [ftToStrTab] using h
    simp [dirPrintLine, ftLookup, List.getElem?_eq_getElem hlen]
  · intro h
    have hlen : ftToStrTab.length ≤ e.file_type := by simpa [ftToStrTab] using h
    simp [dirPrintLine, ftLookup, List.getElem?_eq_none, hlen]

/-- Claim C9, witness: an in-range entry (`file_type = 2`) and an
out-of-range entry (`file_type = 9`) read from a concrete device. -/
theorem c9_ft_lookup_witness :
    ((readDirEnt devFT 1024).file_type < 8
      ∧ (dirPrintLine (readDirEnt devFT 1024)).isSome = true)
    ∧ (8 ≤ (readDirEnt devFT 0).file_type
      ∧ dirPrintLine (readDirEnt devFT 0) = none) := by
  have h1 : (readDirEnt devFT 1024).file_type < 8 := by decide
  have h2 : 8 ≤ (readDirEnt devFT 0).file_type := by decide
  exact ⟨⟨h1, (c9_ft_lookup (readDirEnt devFT 1024)).1 h1⟩,
    ⟨h2, (c9_ft_lookup (readDirEnt devFT 0)).2 h2⟩⟩

/-- Claim C10.  Any inode number that `ext2_path_to_ino` returns is at
least `EXT2_ROOT_INO = 2`: the fold starts at 2 and accepts a
per-component lookup result only when it is ≥ 2 (`ino < EXT2_ROOT_INO`
aborts with "File search failed"), so 0 and 1 can never be produced. -/
theorem c10_resolved_ino_ge_root (dev : Nat → Nat) (sb : SuperBlock)
    (path : List Nat) (r : Nat)
    (h : ext2_path_to_ino dev sb path = some r) : 2 ≤ r :=
  pathToInoToks_ge (ext2_nxt_ino dev sb) (getToks path) 2 r (by omega) h

/-- Claim C10, witness at the empty path. -/
theorem c10_resolved_ino_ge_root_witness :
    ext2_path_to_ino devZero sbB [] = some 2 ∧ 2 ≤ 2 := by
  have h : ext2_path_to_ino devZero sbB [] = some 2 := by decide
  exact ⟨h, c10_resolved_ino_ge_root devZero sbB [] 2 h⟩
